import Mathlib

/-!
Verification of the weather-service-api acquisition-and-aggregation pipeline.

The Go source is shallowly embedded: machine floats (`float64` speeds and
coordinates) are modelled as exact rationals `ℚ`, Go `int` years as `ℤ`,
`time.Time` as an explicit `GoTime` record; fallible Go functions return
`Except`/custom outcome types, and a Go runtime panic (out-of-range slice
index, negative `make` capacity) is modelled by an explicit `.panicked`
outcome.
-/

namespace WeatherService

/-- GoTime models the part of Go's `time.Time` the service uses: a calendar
timestamp produced by `time.Parse("2006010215", s)`.  Only the `year` field is
read by the aggregator (`EndDate.Year()`). -/
structure GoTime where
  year : ℤ
  month : ℕ
  day : ℕ
  hour : ℕ
  deriving DecidableEq, Repr

/-- HourlyStatistics mirrors `model.HourlyStatistics`: an end-of-hour
timestamp and a wind speed (float64 modelled as ℚ; negative speed is the
"unknown" sentinel, e.g. -999). -/
structure HourlyStatistics where
  endDate : GoTime
  speed : ℚ
  deriving DecidableEq, Repr

/-- WindStatistics mirrors `model.WindStatistics`: one annual average wind
speed record for a station. -/
structure WindStatistics where
  stationName : String
  year : ℤ
  speed : ℚ
  deriving DecidableEq, Repr

/-- countAux is the loop of `countAnnualStatistics` (service.go:297-340),
with the mutable loop state (`previous`, `sum`, `num`) made explicit and the
Go index test `i == len(hourlyStatistics)-1` rendered as "the rest of the
list is empty".  Branches follow the source line by line: `previous` is
initialised from the first sample's year via the `previous == 0` test, a
negative (sentinel) speed is skipped, a sample of the current year is
accumulated (emitting `sum/num` if it is the last sample), and a sample of a
different year is first accumulated into the running sum, the record for
`previous` is emitted, and the state is reset to start the new year at 0. -/
def countAux (stationName : String) : ℤ → ℚ → ℕ → List HourlyStatistics → List WindStatistics
  | _, _, _, [] => []
  | previous, sum, num, hm :: rest =>
    let year := hm.endDate.year
    let previous' := if previous = 0 then year else previous
    if hm.speed < 0 then
      countAux stationName previous' sum num rest
    else if year = previous' then
      if rest.isEmpty then
        [⟨stationName, year, (sum + hm.speed) / (num + 1 : ℕ)⟩]
      else
        countAux stationName previous' (sum + hm.speed) (num + 1) rest
    else
      ⟨stationName, previous', (sum + hm.speed) / (num + 1 : ℕ)⟩ ::
        countAux stationName year 0 0 rest

/-- countAnnualStatistics embeds `countAnnualStatistics` of
`src/internal/service/service.go` (lines 297-340): it reduces an ordered
sequence of hourly samples to one average-speed record per accumulated year.
The initial state is `previous = 0`, `sum = 0`, `num = 0` as in the Go
variable declarations. -/
def countAnnualStatistics (stationName : String) (hourlyStatistics : List HourlyStatistics) : List WindStatistics :=
  countAux stationName 0 0 0 hourlyStatistics

/-- exampleSamples is the spec's worked example input:
`[(2010-12-31 23h, 4.0), (2011-01-01 00h, 6.0), (2011-06-01 12h, 2.0)]`. -/
def exampleSamples : List HourlyStatistics :=
  [⟨⟨2010, 12, 31, 23⟩, 4⟩, ⟨⟨2011, 1, 1, 0⟩, 6⟩, ⟨⟨2011, 6, 1, 12⟩, 2⟩]

/-- sumSpeeds is the sum of the speeds of a list of samples. -/
def sumSpeeds (l : List HourlyStatistics) : ℚ :=
  (l.map (·.speed)).sum

/-- YearGroup is one maximal run of consecutive samples sharing a calendar
year, used to state what the aggregator computes on a year-grouped stream. -/
structure YearGroup where
  year : ℤ
  samples : List HourlyStatistics
  deriving DecidableEq, Repr

/-- ungroup flattens a list of year groups back into the sample stream. -/
def ungroup (gs : List YearGroup) : List HourlyStatistics :=
  (gs.map (·.samples)).flatten

/-- GroupsWF says a group list is a well-formed year-grouped stream: every
group is nonempty, carries a nonzero year (the Go code reuses year 0 as the
"uninitialised" marker for `previous`), every sample sits in its group's
year, every speed is non-sentinel (non-negative), and adjacent groups have
different years. -/
def GroupsWF (gs : List YearGroup) : Prop :=
  (∀ g ∈ gs, g.samples ≠ []) ∧
  (∀ g ∈ gs, g.year ≠ 0) ∧
  (∀ g ∈ gs, ∀ x ∈ g.samples, x.endDate.year = g.year) ∧
  (∀ g ∈ gs, ∀ x ∈ g.samples, 0 ≤ x.speed) ∧
  gs.Chain' (fun a b => a.year ≠ b.year)

/-- aggRefCont is the reference description of the aggregator's output from
the point where year `y` still owns the speeds `owned` (its samples not yet
emitted) and the remaining groups are `gs`: if no group follows, `y` yields a
record averaging `owned` when nonempty and nothing otherwise; if a group
follows, its first speed is folded into `y`'s record and the next year
continues with its remaining speeds. -/
def aggRefCont (stationName : String) : ℤ → List ℚ → List YearGroup → List WindStatistics
  | y, owned, [] =>
    if owned.isEmpty then [] else [⟨stationName, y, owned.sum / (owned.length : ℚ)⟩]
  | y, owned, g :: gs =>
    ⟨stationName, y, (owned.sum + (g.samples.map (·.speed)).headI) / ((owned.length : ℚ) + 1)⟩ ::
      aggRefCont stationName g.year ((g.samples.map (·.speed)).tail) gs

/-- aggregateRef states, per year group, what `countAnnualStatistics`
produces on a well-formed grouped stream: the first group owns all of its
speeds, and each boundary folds the next group's first speed into the record
being closed. -/
def aggregateRef (stationName : String) : List YearGroup → List WindStatistics
  | [] => []
  | g :: gs => aggRefCont stationName g.year (g.samples.map (·.speed)) gs

/-- countAuxInit shows the `previous == 0` initialisation is equivalent to
starting with `previous` equal to the first sample's year. -/
theorem countAuxInit (name : String) (s : ℚ) (n : ℕ) (x : HourlyStatistics)
    (rest : List HourlyStatistics) :
    countAux name 0 s n (x :: rest) = countAux name x.endDate.year s n (x :: rest) := by
  simp only [countAux, ite_self, if_pos rfl, if_true, eq_self_iff_true]

/-- countAuxRun processes a run of same-year, non-sentinel samples by pure
accumulation when more input follows the run. -/
theorem countAuxRun (name : String) (y : ℤ) (hy : y ≠ 0)
    (L R : List HourlyStatistics) (hR : R ≠ [])
    (hLy : ∀ x ∈ L, x.endDate.year = y) (hLs : ∀ x ∈ L, 0 ≤ x.speed) :
    ∀ (s : ℚ) (n : ℕ),
      countAux name y s n (L ++ R) = countAux name y (s + sumSpeeds L) (n + L.length) R := by
  induction L with
  | nil => intro s n; simp [sumSpeeds]
  | cons x L ih =>
    intro s n
    have hxy : x.endDate.year = y := hLy x (by simp)
    have hxs : ¬ x.speed < 0 := not_lt.mpr (hLs x (by simp))
    have hrest : (L ++ R).isEmpty = false := by
      cases R with
      | nil => exact absurd rfl hR
      | cons r R => cases L <;> rfl
    simp only [List.cons_append, countAux, hxy, if_neg hy, if_neg hxs, if_pos rfl, if_true,
      List.append_eq, hrest, Bool.false_eq_true, if_false]
    rw [ih (fun a ha => hLy a (by simp [ha])) (fun a ha => hLs a (by simp [ha]))]
    have h1 : s + x.speed + sumSpeeds L = s + sumSpeeds (x :: L) := by
      simp [sumSpeeds]; ring
    have h2 : n + 1 + L.length = n + (x :: L).length := by simp; omega
    rw [h1, h2]

/-- countAuxAcc is the single-step accumulation equation: a non-sentinel
sample of the current year, with more input following, only updates the
running sum and count. -/
theorem countAuxAcc (name : String) (y : ℤ) (hy : y ≠ 0) (x : HourlyStatistics)
    (rest : List HourlyStatistics) (hxy : x.endDate.year = y) (hxs : 0 ≤ x.speed)
    (hne : rest ≠ []) (s : ℚ) (n : ℕ) :
    countAux name y s n (x :: rest) = countAux name y (s + x.speed) (n + 1) rest := by
  have hrest : rest.isEmpty = false := by cases rest with
    | nil => exact absurd rfl hne
    | cons r R => rfl
  simp only [countAux, hxy, if_neg hy, if_neg (not_lt.mpr hxs), if_pos rfl, if_true, hrest,
    Bool.false_eq_true, if_false]

/-- countAuxLast processes a trailing run of same-year, non-sentinel samples
and emits the final record for the year in progress. -/
theorem countAuxLast (name : String) (y : ℤ) (hy : y ≠ 0)
    (L : List HourlyStatistics) (hL : L ≠ [])
    (hLy : ∀ x ∈ L, x.endDate.year = y) (hLs : ∀ x ∈ L, 0 ≤ x.speed) :
    ∀ (s : ℚ) (n : ℕ),
      countAux name y s n L = [⟨name, y, (s + sumSpeeds L) / ((n + L.length : ℕ) : ℚ)⟩] := by
  induction L with
  | nil => exact absurd rfl hL
  | cons x L ih =>
    intro s n
    have hxy : x.endDate.year = y := hLy x (by simp)
    have hxs : 0 ≤ x.speed := hLs x (by simp)
    cases L with
    | nil =>
      simp only [countAux, hxy, if_neg hy, if_neg (not_lt.mpr hxs), if_pos rfl, if_true,
        List.isEmpty_nil, if_pos rfl]
      simp [sumSpeeds]
    | cons x' L' =>
      rw [countAuxAcc name y hy x (x' :: L') hxy hxs (by simp) s n]
      rw [ih (by simp) (fun a ha => hLy a (by simp [ha])) (fun a ha => hLs a (by simp [ha]))]
      have h1 : s + x.speed + sumSpeeds (x' :: L') = s + sumSpeeds (x :: x' :: L') := by
        simp [sumSpeeds]; ring
      have h2 : n + 1 + (x' :: L').length = n + (x :: x' :: L').length := by simp; omega
      rw [h1, h2]

/-- countAuxBoundary shows a non-sentinel sample of a different year closes
the record for `previous` (with the boundary sample folded into it) and
restarts accumulation at zero. -/
theorem countAuxBoundary (name : String) (y : ℤ) (hy : y ≠ 0)
    (x : HourlyStatistics) (rest : List HourlyStatistics)
    (hxs : 0 ≤ x.speed) (hxy : x.endDate.year ≠ y) (s : ℚ) (n : ℕ) :
    countAux name y s n (x :: rest) =
      ⟨name, y, (s + x.speed) / ((n + 1 : ℕ) : ℚ)⟩ :: countAux name x.endDate.year 0 0 rest := by
  simp only [countAux, if_neg hy, if_neg (not_lt.mpr hxs), if_neg hxy]

/-- countAuxGroups is the main refinement lemma: starting a fresh year `y`
that still owns the trailing samples `M` of its group, the aggregator loop
computes exactly the reference description `aggRefCont`. -/
theorem countAuxGroups (name : String) :
    ∀ (gs : List YearGroup) (y : ℤ) (M : List HourlyStatistics),
      y ≠ 0 →
      (∀ x ∈ M, x.endDate.year = y) → (∀ x ∈ M, 0 ≤ x.speed) →
      (∀ g ∈ gs, g.samples ≠ []) → (∀ g ∈ gs, g.year ≠ 0) →
      (∀ g ∈ gs, ∀ x ∈ g.samples, x.endDate.year = g.year) →
      (∀ g ∈ gs, ∀ x ∈ g.samples, 0 ≤ x.speed) →
      gs.Chain' (fun a b => a.year ≠ b.year) →
      (∀ g ∈ gs.head?, g.year ≠ y) →
      countAux name y 0 0 (M ++ ungroup gs) = aggRefCont name y (M.map (·.speed)) gs := by
  intro gs
  induction gs with
  | nil =>
    intro y M hy hMy hMs _ _ _ _ _ _
    cases M with
    | nil => simp [countAux, ungroup, aggRefCont]
    | cons m M' =>
      rw [ungroup, List.map_nil, List.flatten_nil, List.append_nil]
      rw [countAuxLast name y hy (m :: M') (by simp) hMy hMs 0 0]
      simp [aggRefCont, sumSpeeds]
  | cons g gs ih =>
    intro y M hy hMy hMs hne hyr hgy hgs hch hhd
    obtain ⟨hd, tl, hgsam⟩ : ∃ hd tl, g.samples = hd :: tl := by
      cases hsam : g.samples with
      | nil => exact absurd hsam (hne g (by simp))
      | cons a b => exact ⟨a, b, rfl⟩
    have hgy0 : g.year ≠ 0 := hyr g (by simp)
    have hhdy : hd.endDate.year = g.year := hgy g (by simp) hd (by rw [hgsam]; simp)
    have hhds : 0 ≤ hd.speed := hgs g (by simp) hd (by rw [hgsam]; simp)
    have hgny : g.year ≠ y := hhd g rfl
    have hun : ungroup (g :: gs) = hd :: (tl ++ ungroup gs) := by
      rw [ungroup, List.map_cons, List.flatten_cons, hgsam]
      rfl
    rw [hun]
    rw [countAuxRun name y hy M (hd :: (tl ++ ungroup gs)) (by simp) hMy hMs 0 0]
    rw [countAuxBoundary name y hy hd (tl ++ ungroup gs) hhds (by rw [hhdy]; exact hgny)]
    rw [hhdy]
    rw [ih g.year tl hgy0
      (fun a ha => hgy g (by simp) a (by rw [hgsam]; simp [ha]))
      (fun a ha => hgs g (by simp) a (by rw [hgsam]; simp [ha]))
      (fun a ha => hne a (by simp [ha])) (fun a ha => hyr a (by simp [ha]))
      (fun a ha => hgy a (by simp [ha])) (fun a ha => hgs a (by simp [ha]))
      hch.tail (fun a ha => ((List.chain'_cons'.mp hch).1 a ha).symm)]
    rw [aggRefCont]
    congr 1
    · have h1 : (g.samples.map (·.speed)).headI = hd.speed := by rw [hgsam]; rfl
      rw [h1]
      have h2 : ((M.map (·.speed)).length : ℚ) = (M.length : ℚ) := by rw [List.length_map]
      rw [h2]
      have h3 : (M.map (·.speed)).sum = sumSpeeds M := rfl
      rw [h3]
      push_cast
      ring_nf
    · congr 1
      rw [hgsam]
      rfl

/-- exampleGroups is the spec's worked example stream, grouped by year. -/
def exampleGroups : List YearGroup :=
  [⟨2010, [⟨⟨2010, 12, 31, 23⟩, 4⟩]⟩, ⟨2011, [⟨⟨2011, 1, 1, 0⟩, 6⟩, ⟨⟨2011, 6, 1, 12⟩, 2⟩]⟩]

/-- C1 (corrected): on a well-formed year-grouped stream of non-sentinel
samples, `countAnnualStatistics` computes the reference description
`aggregateRef`: each year-boundary sample is folded into the record of the
year being closed (not its own year), every later year's record therefore
averages its remaining samples plus the first sample of the following year,
and the last year only yields a record for its remaining samples. -/
theorem countAnnualStatistics_eq_aggregateRef (name : String) (gs : List YearGroup)
    (hwf : GroupsWF gs) :
    countAnnualStatistics name (ungroup gs) = aggregateRef name gs := by
  obtain ⟨h1, h2, h3, h4, h5⟩ := hwf
  cases gs with
  | nil => rfl
  | cons g gs =>
    obtain ⟨hd, tl, hgsam⟩ : ∃ hd tl, g.samples = hd :: tl := by
      cases hsam : g.samples with
      | nil => exact absurd hsam (h1 g (by simp))
      | cons a b => exact ⟨a, b, rfl⟩
    have hun : ungroup (g :: gs) = hd :: (tl ++ ungroup gs) := by
      rw [ungroup, List.map_cons, List.flatten_cons, hgsam]
      rfl
    have hhdy : hd.endDate.year = g.year := h3 g (by simp) hd (by rw [hgsam]; simp)
    rw [countAnnualStatistics, hun, countAuxInit, hhdy, ← hun]
    have hun2 : ungroup (g :: gs) = g.samples ++ ungroup gs := by
      rw [ungroup, List.map_cons, List.flatten_cons]
      rfl
    rw [hun2]
    rw [countAuxGroups name gs g.year g.samples (h2 g (by simp))
      (fun a ha => h3 g (by simp) a ha) (fun a ha => h4 g (by simp) a ha)
      (fun a ha => h1 a (by simp [ha])) (fun a ha => h2 a (by simp [ha]))
      (fun a ha => h3 a (by simp [ha])) (fun a ha => h4 a (by simp [ha]))
      h5.tail (fun a ha => ((List.chain'_cons'.mp h5).1 a ha).symm)]
    rfl

/-- C1 witness: the amended statement holds on the spec's worked example,
whose grouping is well formed; the resulting records are
`[{2010, 5.0}, {2011, 2.0}]`. -/
theorem countAnnualStatistics_eq_aggregateRef_witness :
    GroupsWF exampleGroups ∧
      countAnnualStatistics "Aachen" (ungroup exampleGroups) = aggregateRef "Aachen" exampleGroups := by
  have hwf : GroupsWF exampleGroups := by
    refine ⟨?_, ?_, ?_, ?_, ?_⟩ <;> simp [exampleGroups]
  exact ⟨hwf, countAnnualStatistics_eq_aggregateRef "Aachen" exampleGroups hwf⟩

/-- C1 counterexample: on the spec's own worked example the aggregator
returns `[{2010, 5.0}, {2011, 2.0}]`, not the claimed
`[{2010, 4.0}, {2011, 4.0}]`: the 2011-01-01 00h boundary sample is averaged
into 2010, so 2010's record is (4+6)/2 = 5 and 2011's is 2/1 = 2. -/
theorem countAnnualStatistics_example_refutes_spec :
    countAnnualStatistics "Aachen" exampleSamples = [⟨"Aachen", 2010, 5⟩, ⟨"Aachen", 2011, 2⟩] ∧
      countAnnualStatistics "Aachen" exampleSamples ≠ [⟨"Aachen", 2010, 4⟩, ⟨"Aachen", 2011, 4⟩] := by
  have h : countAnnualStatistics "Aachen" exampleSamples = [⟨"Aachen", 2010, 5⟩, ⟨"Aachen", 2011, 2⟩] := by
    simp [countAnnualStatistics, countAux, exampleSamples]
    norm_num
  refine ⟨h, ?_⟩
  rw [h]
  intro hcontra
  have := List.head_eq_of_cons_eq hcontra
  rw [WindStatistics.mk.injEq] at this
  norm_num at this

/-- AnnRecord is an instrumented output record of the aggregator: instead of
the running float sum and count it keeps the list of speeds that were added
to the running sum for this record. -/
structure AnnRecord where
  year : ℤ
  speeds : List ℚ
  deriving DecidableEq, Repr

/-- countAuxAnn is `countAux` instrumented to carry, in place of the running
`sum`/`num` pair, the exact list of speeds accumulated so far; the branch
structure is identical to the Go loop. -/
def countAuxAnn : ℤ → List ℚ → List HourlyStatistics → List AnnRecord
  | _, _, [] => []
  | previous, ws, hm :: rest =>
    let year := hm.endDate.year
    let previous' := if previous = 0 then year else previous
    if hm.speed < 0 then
      countAuxAnn previous' ws rest
    else if year = previous' then
      if rest.isEmpty then
        [⟨year, ws ++ [hm.speed]⟩]
      else
        countAuxAnn previous' (ws ++ [hm.speed]) rest
    else
      ⟨previous', ws ++ [hm.speed]⟩ :: countAuxAnn year [] rest

/-- countAuxErase shows the instrumented loop erases to the real one: each
instrumented record's average over its accumulated speed list is exactly the
`sum/num` division the Go loop performs. -/
theorem countAuxErase (name : String) :
    ∀ (l : List HourlyStatistics) (prev : ℤ) (ws : List ℚ),
      countAux name prev ws.sum ws.length l =
        (countAuxAnn prev ws l).map
          (fun r => ⟨name, r.year, r.speeds.sum / (r.speeds.length : ℚ)⟩) := by
  intro l
  induction l with
  | nil => intro prev ws; rfl
  | cons x rest ih =>
    intro prev ws
    have hsum : ws.sum + x.speed = (ws ++ [x.speed]).sum := by simp
    have hlen : ws.length + 1 = (ws ++ [x.speed]).length := by simp
    by_cases h1 : x.speed < 0
    · simp only [countAux, countAuxAnn, if_pos h1]
      exact ih _ ws
    · by_cases h2 : x.endDate.year = (if prev = 0 then x.endDate.year else prev)
      · by_cases h3 : rest.isEmpty = true
        · simp only [countAux, countAuxAnn, if_neg h1, if_pos h2, if_pos h3, List.map_cons,
            List.map_nil]
          simp
        · simp only [countAux, countAuxAnn, if_neg h1, if_pos h2, if_neg h3]
          rw [hsum, hlen]
          exact ih _ (ws ++ [x.speed])
      · simp only [countAux, countAuxAnn, if_neg h1, if_neg h2, List.map_cons]
        refine congrArg₂ _ ?_ (ih _ [])
        simp

/-- countAuxAnnSpeeds shows every instrumented record's speed list is
nonempty and consists of speeds of non-sentinel samples of the remaining
input, apart from speeds already accumulated on entry. -/
theorem countAuxAnnSpeeds :
    ∀ (l : List HourlyStatistics) (prev : ℤ) (ws : List ℚ) (r : AnnRecord),
      r ∈ countAuxAnn prev ws l →
      r.speeds ≠ [] ∧ ∀ w ∈ r.speeds, w ∈ ws ∨ ∃ x ∈ l, 0 ≤ x.speed ∧ x.speed = w := by
  intro l
  induction l with
  | nil => intro prev ws r hr; exact absurd hr (by simp [countAuxAnn])
  | cons x rest ih =>
    intro prev ws r hr
    by_cases h1 : x.speed < 0
    · simp only [countAuxAnn, if_pos h1] at hr
      obtain ⟨hne, hmem⟩ := ih _ ws r hr
      refine ⟨hne, fun w hw => ?_⟩
      rcases hmem w hw with h | ⟨a, ha, has, haw⟩
      · exact Or.inl h
      · exact Or.inr ⟨a, by simp [ha], has, haw⟩
    · by_cases h2 : x.endDate.year = (if prev = 0 then x.endDate.year else prev)
      · by_cases h3 : rest.isEmpty = true
        · simp only [countAuxAnn, if_neg h1, if_pos h2, if_pos h3, List.mem_singleton] at hr
          subst hr
          refine ⟨by simp, fun w hw => ?_⟩
          rcases List.mem_append.mp hw with h | h
          · exact Or.inl h
          · rw [List.mem_singleton] at h
            exact Or.inr ⟨x, by simp, not_lt.mp h1, h.symm⟩
        · simp only [countAuxAnn, if_neg h1, if_pos h2, if_neg h3] at hr
          obtain ⟨hne, hmem⟩ := ih _ (ws ++ [x.speed]) r hr
          refine ⟨hne, fun w hw => ?_⟩
          rcases hmem w hw with h | ⟨a, ha, has, haw⟩
          · rcases List.mem_append.mp h with h' | h'
            · exact Or.inl h'
            · rw [List.mem_singleton] at h'
              exact Or.inr ⟨x, by simp, not_lt.mp h1, h'.symm⟩
          · exact Or.inr ⟨a, by simp [ha], has, haw⟩
      · simp only [countAuxAnn, if_neg h1, if_neg h2] at hr
        rcases List.mem_cons.mp hr with h | h
        · subst h
          refine ⟨by simp, fun w hw => ?_⟩
          rcases List.mem_append.mp hw with h | h
          · exact Or.inl h
          · rw [List.mem_singleton] at h
            exact Or.inr ⟨x, by simp, not_lt.mp h1, h.symm⟩
        · obtain ⟨hne, hmem⟩ := ih _ [] r h
          refine ⟨hne, fun w hw => ?_⟩
          rcases hmem w hw with h' | ⟨a, ha, has, haw⟩
          · exact absurd h' (List.not_mem_nil w)
          · exact Or.inr ⟨a, by simp [ha], has, haw⟩

/-- countAuxYears shows every record emitted from a state whose `previous`
year is nonzero carries either that year or the year of a later non-sentinel
sample. -/
theorem countAuxYears (name : String) :
    ∀ (l : List HourlyStatistics) (prev : ℤ) (s : ℚ) (n : ℕ),
      prev ≠ 0 → (∀ x ∈ l, x.endDate.year ≠ 0) →
      ∀ r ∈ countAux name prev s n l,
        r.year = prev ∨ ∃ x ∈ l, x.endDate.year = r.year ∧ 0 ≤ x.speed := by
  intro l
  induction l with
  | nil => intro prev s n _ _ r hr; exact absurd hr (by simp [countAux])
  | cons x rest ih =>
    intro prev s n hprev hyears r hr
    by_cases h1 : x.speed < 0
    · simp only [countAux, if_neg hprev, if_pos h1] at hr
      rcases ih prev s n hprev (fun a ha => hyears a (by simp [ha])) r hr with h | ⟨a, ha, hay, has⟩
      · exact Or.inl h
      · exact Or.inr ⟨a, by simp [ha], hay, has⟩
    · by_cases h2 : x.endDate.year = prev
      · by_cases h3 : rest.isEmpty = true
        · simp only [countAux, if_neg hprev, if_neg h1, if_pos h2, if_pos h3,
            List.mem_singleton] at hr
          subst hr
          exact Or.inl h2
        · simp only [countAux, if_neg hprev, if_neg h1, if_pos h2, if_neg h3] at hr
          rcases ih prev _ _ hprev (fun a ha => hyears a (by simp [ha])) r hr with h | ⟨a, ha, hay, has⟩
          · exact Or.inl h
          · exact Or.inr ⟨a, by simp [ha], hay, has⟩
      · simp only [countAux, if_neg hprev, if_neg h1, if_neg h2] at hr
        rcases List.mem_cons.mp hr with h | h
        · subst h
          exact Or.inl rfl
        · have hx0 : x.endDate.year ≠ 0 := hyears x (by simp)
          rcases ih x.endDate.year 0 0 hx0 (fun a ha => hyears a (by simp [ha])) r h with h' | ⟨a, ha, hay, has⟩
          · exact Or.inr ⟨x, by simp, h'.symm, not_lt.mp h1⟩
          · exact Or.inr ⟨a, by simp [ha], hay, has⟩

/-- sentinelOnlyYear is a stream whose first year (2010) contains only the
sentinel sample -999, followed by one real 2011 sample. -/
def sentinelOnlyYear : List HourlyStatistics :=
  [⟨⟨2010, 1, 1, 0⟩, -999⟩, ⟨⟨2011, 1, 1, 0⟩, 5⟩]

/-- C2 (corrected): (a) every record's speed is the average of a nonempty
list of speeds of non-sentinel input samples — sentinel speeds never enter a
sum or count and no average is ever formed from a zero count; (b) every
record whose year differs from the first sample's year belongs to a year
that has at least one non-sentinel sample, so a year whose samples are all
sentinel yields no record, except possibly the first sample's year. -/
theorem countAnnualStatistics_sentinel_safety :
    (∀ (name : String) (samples : List HourlyStatistics),
      ∀ r ∈ countAnnualStatistics name samples,
        ∃ ws : List ℚ, ws ≠ [] ∧ (∀ w ∈ ws, ∃ x ∈ samples, 0 ≤ x.speed ∧ x.speed = w) ∧
          r.speed = ws.sum / (ws.length : ℚ)) ∧
    (∀ (name : String) (x₀ : HourlyStatistics) (samples : List HourlyStatistics),
      (∀ x ∈ x₀ :: samples, x.endDate.year ≠ 0) →
      ∀ r ∈ countAnnualStatistics name (x₀ :: samples),
        r.year ≠ x₀.endDate.year →
        ∃ x ∈ x₀ :: samples, x.endDate.year = r.year ∧ 0 ≤ x.speed) := by
  constructor
  · intro name samples r hr
    rw [countAnnualStatistics] at hr
    have h0 : countAux name 0 0 0 samples =
        (countAuxAnn 0 [] samples).map
          (fun r => ⟨name, r.year, r.speeds.sum / (r.speeds.length : ℚ)⟩) :=
      countAuxErase name samples 0 []
    rw [h0, List.mem_map] at hr
    obtain ⟨ra, hra, hre⟩ := hr
    obtain ⟨hne, hmem⟩ := countAuxAnnSpeeds samples 0 [] ra hra
    refine ⟨ra.speeds, hne, fun w hw => ?_, ?_⟩
    · rcases hmem w hw with h | h
      · exact absurd h (List.not_mem_nil w)
      · exact h
    · rw [← hre]
  · intro name x₀ samples hyears r hr hne
    rw [countAnnualStatistics, countAuxInit] at hr
    rcases countAuxYears name (x₀ :: samples) x₀.endDate.year 0 0
        (hyears x₀ (by simp)) hyears r hr with h | h
    · exact absurd h hne
    · exact h

/-- C2 witness: both corrected conjuncts applied on the spec's worked
example: the 2011 record `{2011, 2.0}` averages a nonempty list of
non-sentinel example speeds, and its year 2011, different from the first
sample's year 2010, indeed has a non-sentinel sample. -/
theorem countAnnualStatistics_sentinel_safety_witness :
    (∃ ws : List ℚ, ws ≠ [] ∧ (∀ w ∈ ws, ∃ x ∈ exampleSamples, 0 ≤ x.speed ∧ x.speed = w) ∧
        (2 : ℚ) = ws.sum / (ws.length : ℚ)) ∧
      (∃ x ∈ exampleSamples, x.endDate.year = 2011 ∧ 0 ≤ x.speed) := by
  have heval : countAnnualStatistics "Aachen" exampleSamples =
      [⟨"Aachen", 2010, 5⟩, ⟨"Aachen", 2011, 2⟩] := by
    simp [countAnnualStatistics, countAux, exampleSamples]
    norm_num
  have hmem : (⟨"Aachen", 2011, 2⟩ : WindStatistics) ∈
      countAnnualStatistics "Aachen" exampleSamples := by rw [heval]; simp
  have hyears : ∀ x ∈ exampleSamples, x.endDate.year ≠ 0 := by
    intro x hx
    rcases List.mem_cons.mp hx with h | h
    · subst h; decide
    · rcases List.mem_cons.mp h with h' | h'
      · subst h'; decide
      · rcases List.mem_cons.mp h' with h2 | h2
        · subst h2; decide
        · exact absurd h2 (List.not_mem_nil x)
  constructor
  · exact countAnnualStatistics_sentinel_safety.1 "Aachen" exampleSamples ⟨"Aachen", 2011, 2⟩ hmem
  · have := countAnnualStatistics_sentinel_safety.2 "Aachen" ⟨⟨2010, 12, 31, 23⟩, 4⟩
      [⟨⟨2011, 1, 1, 0⟩, 6⟩, ⟨⟨2011, 6, 1, 12⟩, 2⟩] hyears ⟨"Aachen", 2011, 2⟩ hmem (by decide)
    exact this

/-- C2 counterexample: in `sentinelOnlyYear` every 2010 sample is sentinel,
yet the output contains a record for year 2010 (carrying the 2011 sample's
value 5), refuting "a year whose samples are all sentinel yields no output
record for that year". -/
theorem countAnnualStatistics_sentinel_year_record :
    (∀ x ∈ sentinelOnlyYear, x.endDate.year = 2010 → x.speed < 0) ∧
      ∃ r ∈ countAnnualStatistics "Essen" sentinelOnlyYear, r.year = 2010 := by
  constructor
  · intro x hx hy
    rcases List.mem_cons.mp hx with h | h
    · subst h; norm_num
    · rcases List.mem_cons.mp h with h' | h'
      · subst h'; exact absurd hy (by decide)
      · exact absurd h' (List.not_mem_nil x)
  · have heval : countAnnualStatistics "Essen" sentinelOnlyYear = [⟨"Essen", 2010, 5⟩] := by
      simp [countAnnualStatistics, countAux, sentinelOnlyYear]
    exact ⟨⟨"Essen", 2010, 5⟩, by rw [heval]; simp, rfl⟩

/-- GoOutcome is the result of a Go function that may return a value, return
an error, or panic at runtime (out-of-range slice index or negative `make`
capacity). -/
inductive GoOutcome (α : Type) where
  | ok (a : α)
  | err (msg : String)
  | panicked
  deriving DecidableEq, Repr

/-- Station mirrors `model.Station` as produced by the station-directory
parser: external id and display name. -/
structure Station where
  id : String
  name : String
  deriving DecidableEq, Repr

/-- splitChar is Go's `strings.Split(s, sep)` for a one-character separator,
over the character list of the string: it keeps empty fields and always
yields at least one field. -/
def splitChar (sep : Char) : List Char → List (List Char)
  | [] => [[]]
  | c :: cs =>
    if c = sep then [] :: splitChar sep cs
    else
      match splitChar sep cs with
      | [] => [[c]]
      | w :: ws => (c :: w) :: ws

/-- splitWhen generalises `splitChar` to a separator predicate, keeping
empty fields. -/
def splitWhen (p : Char → Bool) : List Char → List (List Char)
  | [] => [[]]
  | c :: cs =>
    if p c then [] :: splitWhen p cs
    else
      match splitWhen p cs with
      | [] => [[c]]
      | w :: ws => (c :: w) :: ws

/-- goFields is Go's `strings.Fields`: split around runs of whitespace,
dropping empty fields. -/
def goFields (s : String) : List (List Char) :=
  (splitWhen (fun c => c.isWhitespace) s.data).filter (· ≠ [])

/-- digitVal interprets a decimal digit character. -/
def digitVal (c : Char) : Option ℕ :=
  if c.isDigit then some (c.toNat - 48) else none

/-- parseNatDigits reads a run of decimal digits as a natural number,
failing on any non-digit. -/
def parseNatDigits (cs : List Char) : Option ℕ :=
  cs.foldl
    (fun acc c =>
      match acc, digitVal c with
      | some n, some d => some (n * 10 + d)
      | _, _ => none)
    (some 0)

/-- isLeapYear is the Gregorian leap-year rule used by Go's `time`
package. -/
def isLeapYear (y : ℤ) : Bool :=
  (y % 4 == 0 && y % 100 != 0) || y % 400 == 0

/-- daysInMonth gives the number of days of a month as validated by Go's
`time.Parse`. -/
def daysInMonth (y : ℤ) (m : ℕ) : ℕ :=
  if m = 2 then (if isLeapYear y then 29 else 28)
  else if m = 4 ∨ m = 6 ∨ m = 9 ∨ m = 11 then 30
  else 31

/-- goTimeParse embeds `time.Parse("2006010215", s)`: a compact
year-month-day-hour timestamp of exactly ten digits, with calendar-valid
month, day and hour. -/
def goTimeParse (cs : List Char) : Option GoTime :=
  if cs.length = 10 then
    match parseNatDigits (cs.take 4), parseNatDigits ((cs.drop 4).take 2),
        parseNatDigits ((cs.drop 6).take 2), parseNatDigits (cs.drop 8) with
    | some y, some mo, some d, some h =>
      if 1 ≤ mo ∧ mo ≤ 12 ∧ 1 ≤ d ∧ d ≤ daysInMonth (y : ℤ) mo ∧ h ≤ 23 then
        some ⟨(y : ℤ), mo, d, h⟩
      else none
    | _, _, _, _ => none
  else none

/-- goParseFloat embeds the plain decimal forms accepted by
`strconv.ParseFloat` (optional sign, integer digits, optional fraction);
the exotic forms (exponent, inf, nan, hex) never occur in the measurement
files and are not modelled. -/
def goParseFloat (cs : List Char) : Option ℚ :=
  let signed : ℚ × List Char :=
    match cs with
    | '-' :: t => (-1, t)
    | '+' :: t => (1, t)
    | t => (1, t)
  let intPart := signed.2.takeWhile (·.isDigit)
  let rest := signed.2.dropWhile (·.isDigit)
  match rest with
  | [] =>
    if intPart.isEmpty then none
    else (parseNatDigits intPart).map (fun n => signed.1 * n)
  | '.' :: frac =>
    if frac.all (·.isDigit) && !(intPart.isEmpty && frac.isEmpty) then
      match parseNatDigits intPart, parseNatDigits frac with
      | some a, some b => some (signed.1 * ((a : ℚ) + (b : ℚ) / ((10 : ℚ) ^ frac.length)))
      | _, _ => none
    else none
  | _ => none

/-- parseHourlyStatistics embeds `parseHourlyStatistics`
(service.go:276-294): spaces are removed, the line is split on ';', field 1
is the end date and field 3 the speed; a missing field is a Go
index-out-of-range panic, a failed conversion is an error. -/
def parseHourlyStatistics (line : String) : GoOutcome HourlyStatistics :=
  let parts := splitChar ';' (line.data.filter (· ≠ ' '))
  match parts.get? 1 with
  | none => .panicked
  | some p1 =>
    match goTimeParse p1 with
    | none => .err "failed to parse end date value"
    | some t =>
      match parts.get? 3 with
      | none => .panicked
      | some p3 =>
        match goParseFloat p3 with
        | none => .err "failed to parse speed value"
        | some sp => .ok ⟨t, sp⟩

/-- collectHourly is the line loop of `getHourlyStatistics`: parse each
line, skip (log) conversion errors, propagate a panic. -/
def collectHourly : List String → GoOutcome (List HourlyStatistics)
  | [] => .ok []
  | l :: ls =>
    match parseHourlyStatistics l with
    | .panicked => .panicked
    | .err _ => collectHourly ls
    | .ok h =>
      match collectHourly ls with
      | .ok hs => .ok (h :: hs)
      | o => o

/-- getHourlyStatistics embeds `getHourlyStatistics` (service.go:246-273)
from the point where the data file's lines are in memory: with no lines at
all, `make([]*model.HourlyStatistics, 0, len(fileLines)-1)` is given a
negative capacity and `fileLines[1:]` is out of range — a panic; otherwise
the first (header) line is dropped and the rest are parsed leniently. -/
def getHourlyStatistics (lines : List String) : GoOutcome (List HourlyStatistics) :=
  if lines.length < 1 then .panicked
  else collectHourly (lines.drop 1)

/-- parseStationsInfo embeds `parseStationsInfo` (service.go:446-457): the
line is whitespace-split; `parts[6 : len(parts)-1]` (joined by single
spaces) is the display name and `parts[0]` the id; with fewer than 7 fields
the slice bounds are out of range — a Go panic.  The function has no error
return path. -/
def parseStationsInfo (line : String) : GoOutcome Station :=
  let parts := goFields line
  if parts.length < 7 then .panicked
  else
    .ok ⟨⟨parts.headI⟩, ⟨List.intercalate [' '] ((parts.drop 6).dropLast)⟩⟩

/-- collectStations is the line loop of `getStationsInfo`: parse each line,
skip (log) lines whose parse returns an error, propagate a panic. -/
def collectStations : List String → GoOutcome (List Station)
  | [] => .ok []
  | l :: ls =>
    match parseStationsInfo l with
    | .panicked => .panicked
    | .err _ => collectStations ls
    | .ok st =>
      match collectStations ls with
      | .ok sts => .ok (st :: sts)
      | o => o

/-- getStationsInfo embeds `getStationsInfo` (service.go:412-443) from the
point where the directory file's lines are decoded: with fewer than two
lines, `make([]*model.Station, 0, len(fileLines)-2)` is given a negative
capacity and `fileLines[2:]` is out of range — a panic; otherwise the two
header lines are dropped and the rest are parsed. -/
def getStationsInfo (lines : List String) : GoOutcome (List Station) :=
  if lines.length < 2 then .panicked
  else collectStations (lines.drop 2)

/-- parseHourlyNoPanic: a line whose space-stripped ';'-split has at least
four fields never panics — only field conversions can fail, and they fail
with an error. -/
theorem parseHourlyNoPanic (l : String)
    (h : 4 ≤ (splitChar ';' (l.data.filter (· ≠ ' '))).length) :
    parseHourlyStatistics l ≠ .panicked := by
  rw [parseHourlyStatistics]
  rcases hp : splitChar ';' (l.data.filter (· ≠ ' ')) with _ | ⟨a, _ | ⟨b, _ | ⟨c, _ | ⟨d, rest⟩⟩⟩⟩ <;>
    (rw [hp] at h; simp at h; try omega)
  rcases hq : goTimeParse b with _ | t
  · simp [hq]
  · rcases hr : goParseFloat d with _ | sp
    · simp [hq, hr]
    · simp [hq, hr]

/-- parseStationsNoPanic: a directory line with at least seven whitespace
fields parses successfully (this parser has no error path at all). -/
theorem parseStationsNoPanic (l : String) (h : 7 ≤ (goFields l).length) :
    parseStationsInfo l =
      .ok ⟨⟨(goFields l).headI⟩, ⟨List.intercalate [' '] (((goFields l).drop 6).dropLast)⟩⟩ := by
  rw [parseStationsInfo, if_neg (by omega)]

/-- collectHourlyOk: when no line panics, the hourly loop returns exactly
the successfully parsed lines, in order, skipping conversion failures. -/
theorem collectHourlyOk (ls : List String)
    (h : ∀ l ∈ ls, parseHourlyStatistics l ≠ .panicked) :
    collectHourly ls =
      .ok (ls.filterMap (fun l =>
        match parseHourlyStatistics l with
        | .ok hs => some hs
        | _ => none)) := by
  induction ls with
  | nil => rfl
  | cons l ls ih =>
    have hih := ih (fun a ha => h a (by simp [ha]))
    cases hp : parseHourlyStatistics l with
    | panicked => exact absurd hp (h l (by simp))
    | err m => simp [collectHourly, hp, hih]
    | ok hs => simp [collectHourly, hp, hih]

/-- collectStationsOk: when no directory line panics, the directory loop
returns exactly the successfully parsed lines in order. -/
theorem collectStationsOk (ls : List String)
    (h : ∀ l ∈ ls, parseStationsInfo l ≠ .panicked) :
    collectStations ls =
      .ok (ls.filterMap (fun l =>
        match parseStationsInfo l with
        | .ok st => some st
        | _ => none)) := by
  induction ls with
  | nil => rfl
  | cons l ls ih =>
    have hih := ih (fun a ha => h a (by simp [ha]))
    cases hp : parseStationsInfo l with
    | panicked => exact absurd hp (h l (by simp))
    | err m => simp [collectStations, hp, hih]
    | ok st => simp [collectStations, hp, hih]

/-- C7 (corrected): as long as every data line has enough fields (four
';'-fields for measurements, seven whitespace fields for the directory), a
line that fails conversion is skipped and never aborts, and the parsers
return exactly the records of the well-formed lines; the too-few-fields
case, however, panics (see the counterexample theorem). -/
theorem parsers_skip_only_conversion_failures :
    (∀ lines : List String, lines ≠ [] →
      (∀ l ∈ lines.drop 1, 4 ≤ (splitChar ';' (l.data.filter (· ≠ ' '))).length) →
      getHourlyStatistics lines =
        .ok ((lines.drop 1).filterMap (fun l =>
          match parseHourlyStatistics l with
          | .ok hs => some hs
          | _ => none))) ∧
    (∀ lines : List String, 2 ≤ lines.length →
      (∀ l ∈ lines.drop 2, 7 ≤ (goFields l).length) →
      getStationsInfo lines =
        .ok ((lines.drop 2).filterMap (fun l =>
          match parseStationsInfo l with
          | .ok st => some st
          | _ => none))) := by
  constructor
  · intro lines hne hwide
    have hlen : ¬ lines.length < 1 := by
      cases lines with
      | nil => exact absurd rfl hne
      | cons a b => simp
    rw [getHourlyStatistics, if_neg hlen]
    exact collectHourlyOk _ (fun l hl => parseHourlyNoPanic l (hwide l hl))
  · intro lines hlen hwide
    rw [getStationsInfo, if_neg (by omega)]
    refine collectStationsOk _ (fun l hl => ?_)
    rw [parseStationsNoPanic l (hwide l hl)]
    intro hcontra
    exact GoOutcome.noConfusion hcontra

/-- C7 counterexample: a measurement line with too few ';'-fields and a
directory line with too few whitespace fields each abort the whole load
with a panic instead of being logged and skipped. -/
theorem short_line_aborts_load :
    getHourlyStatistics ["KENNUNG;MESS_DATUM", "abc"] = .panicked ∧
      getStationsInfo ["hdr1", "hdr2", "00003 18910101"] = .panicked := by
  constructor <;> decide

/-- C7 witness: on a concrete file whose lines all have enough fields, one
line with an invalid date is skipped and the two valid lines are returned;
likewise a two-word station name directory line parses. -/
theorem parsers_skip_only_conversion_failures_witness :
    getHourlyStatistics
        ["KENNUNG;MESS_DATUM;QUALITÄT;WINDGESCHWINDIGKEIT;eor",
         "44;2010010100;1;4.5;eor",
         "44;2010019900;1;7.5;eor",
         "44;2010010200;1;-999;eor"] =
      .ok [⟨⟨2010, 1, 1, 0⟩, 9/2⟩, ⟨⟨2010, 1, 2, 0⟩, -999⟩] ∧
    getStationsInfo
        ["Stations_id von_datum bis_datum Stationshoehe geoBreite geoLaenge Stationsname Bundesland",
         "----------- --------- --------- ------------- --------- --------- ----------- ----------",
         "00003 18910101 20110331 202 50.7827 6.0941 Aachen Nordrhein-Westfalen",
         "01975 19370101 20251231 14 53.6332 9.9881 Hamburg Fuhlsbüttel Hamburg"] =
      .ok [⟨"00003", "Aachen"⟩, ⟨"01975", "Hamburg Fuhlsbüttel"⟩] := by
  constructor
  · rw [parsers_skip_only_conversion_failures.1 _ (by decide) (by decide)]
    simp [parseHourlyStatistics, splitChar, goTimeParse, parseNatDigits, digitVal,
      daysInMonth, isLeapYear, goParseFloat]
    norm_num
  · rw [parsers_skip_only_conversion_failures.2 _ (by decide) (by decide)]
    decide

/-- C9 (confirmed): an extracted measurement file with zero lines makes
`getHourlyStatistics` panic (negative `make` capacity and `fileLines[1:]`
out of range) instead of returning an error or an empty result, and a
directory file with fewer than two lines likewise makes `getStationsInfo`
panic; the header lines must be present for either to terminate
normally. -/
theorem headerless_input_panics :
    (getHourlyStatistics [] = .panicked ∧
      ∀ r : List HourlyStatistics, getHourlyStatistics [] ≠ .ok r) ∧
    ∀ lines : List String, lines.length < 2 → getStationsInfo lines = .panicked := by
  refine ⟨⟨rfl, fun r h => ?_⟩, fun lines h => ?_⟩
  · exact GoOutcome.noConfusion h
  · rw [getStationsInfo, if_pos h]

/-- C9 witness: the second conjunct applied to a one-line directory file. -/
theorem headerless_input_panics_witness :
    (["Stations_id von_datum"] : List String).length < 2 ∧
      getStationsInfo ["Stations_id von_datum"] = .panicked :=
  ⟨by decide, headerless_input_panics.2 ["Stations_id von_datum"] (by decide)⟩

/-- GeoResult is one candidate location in the geocoder response body. -/
structure GeoResult where
  latitude : ℚ
  longitude : ℚ
  deriving DecidableEq, Repr

/-- errCityNotFound is the not-found error of `getCityCoordinates`. -/
def errCityNotFound : String := "city not found, please, check city name"

/-- getCityCoordinates embeds the decoded-response handling of
`getCityCoordinates` (src/unnamed/part_008 lines 144-170, identical check in
service.go lines 342-368): an empty result list, or a first result with zero
longitude or zero latitude, is "city not found"; otherwise the first
result's coordinates are returned. -/
def getCityCoordinates : List GeoResult → Except String (ℚ × ℚ)
  | [] => .error errCityNotFound
  | r :: _ =>
    if r.longitude = 0 ∨ r.latitude = 0 then .error errCityNotFound
    else .ok (r.latitude, r.longitude)

/-- C6 (confirmed): zero results is not-found; a first result with both
coordinates exactly zero is not-found; an accepted response returns the
first result's coordinates; and a first result with both coordinates
nonzero is never rejected. -/
theorem getCityCoordinates_zero_sentinel :
    (getCityCoordinates [] = .error errCityNotFound) ∧
    (∀ (r : GeoResult) (rest : List GeoResult), r.latitude = 0 → r.longitude = 0 →
      getCityCoordinates (r :: rest) = .error errCityNotFound) ∧
    (∀ (data : List GeoResult) (p : ℚ × ℚ), getCityCoordinates data = .ok p →
      ∃ (r : GeoResult) (rest : List GeoResult), data = r :: rest ∧
        p = (r.latitude, r.longitude)) ∧
    (∀ (r : GeoResult) (rest : List GeoResult), r.latitude ≠ 0 → r.longitude ≠ 0 →
      getCityCoordinates (r :: rest) = .ok (r.latitude, r.longitude)) := by
  refine ⟨rfl, ?_, ?_, ?_⟩
  · intro r rest hlat hlon
    rw [getCityCoordinates, if_pos (Or.inl hlon)]
  · intro data p hp
    cases data with
    | nil => exact absurd hp (by rw [getCityCoordinates]; intro h; exact Except.noConfusion h)
    | cons r rest =>
      rw [getCityCoordinates] at hp
      by_cases hz : r.longitude = 0 ∨ r.latitude = 0
      · rw [if_pos hz] at hp
        exact absurd hp (by intro h; exact Except.noConfusion h)
      · rw [if_neg hz] at hp
        exact ⟨r, rest, rfl, (Except.ok.injEq _ _ ▸ hp.symm : p = (r.latitude, r.longitude))⟩
  · intro r rest hlat hlon
    rw [getCityCoordinates, if_neg (by tauto)]

/-- C6 witness: the zero-zero first result is rejected, a nonzero first
result (Aachen) is accepted with its own coordinates returned. -/
theorem getCityCoordinates_zero_sentinel_witness :
    getCityCoordinates [⟨0, 0⟩] = .error errCityNotFound ∧
      getCityCoordinates [⟨(101563 : ℚ)/2000, (12188 : ℚ)/2000⟩] =
        .ok ((101563 : ℚ)/2000, (12188 : ℚ)/2000) := by
  constructor
  · exact getCityCoordinates_zero_sentinel.2.1 ⟨0, 0⟩ [] rfl rfl
  · exact getCityCoordinates_zero_sentinel.2.2.2 ⟨(101563 : ℚ)/2000, (12188 : ℚ)/2000⟩ []
      (by norm_num) (by norm_num)

/-- BackendStation mirrors the backend `model.Station` as read by the
station ranker (src/unnamed/part_008): display name, coordinates, and the
end date of its measurement record (`EndDate.Year()` is the
last-measured-year). -/
structure BackendStation where
  name : String
  latitude : ℚ
  longitude : ℚ
  endDate : GoTime
  deriving DecidableEq, Repr

/-- mapUpsert is one Go map assignment `m[k] = v` on an association-list
model of `map[float64]*model.Station`: replace the entry with key `k` if
present, else add one. -/
def mapUpsert (m : List (ℚ × BackendStation)) (k : ℚ) (v : BackendStation) :
    List (ℚ × BackendStation) :=
  if m.any (fun p => p.1 = k) then
    m.map (fun p => if p.1 = k then (k, v) else p)
  else m ++ [(k, v)]

/-- buildDistanceMap is the first loop of `findPossibleNearestStations`:
`stationByDistance[kmDistance] = st` for each station in slice order, where
`dist` stands for the haversine distance from the query point (a
floating-point trigonometric computation, abstracted here as a function of
the station). -/
def buildDistanceMap (dist : BackendStation → ℚ) (stations : List BackendStation) :
    List (ℚ × BackendStation) :=
  stations.foldl (fun m st => mapUpsert m (dist st) st) []

/-- mapKeys lists the keys of the association-list map. -/
def mapKeys (m : List (ℚ × BackendStation)) : List ℚ :=
  m.map (·.1)

/-- findPossibleNearestStations embeds `findPossibleNearestStations`
(src/unnamed/part_008 lines 172-201): build the distance-keyed map, sort
the key set ascending, then keep, in that order, each key's station if its
last-measured-year is strictly greater than `lastMeasuredYear - years`. -/
def findPossibleNearestStations (dist : BackendStation → ℚ)
    (stations : List BackendStation) (years lastMeasuredYear : ℤ) : List BackendStation :=
  let m := buildDistanceMap dist stations
  let distances := (mapKeys m).insertionSort (· ≤ ·)
  distances.filterMap (fun d =>
    match m.find? (fun p => p.1 = d) with
    | some p => if lastMeasuredYear - years < p.2.endDate.year then some p.2 else none
    | none => none)

/-- memMapUpsertSelf: after `m[k] = v` the entry at key `k` is `v`. -/
theorem memMapUpsertSelf (m : List (ℚ × BackendStation)) (k : ℚ) (v v' : BackendStation) :
    (k, v') ∈ mapUpsert m k v ↔ v' = v := by
  rw [mapUpsert]
  by_cases h : m.any (fun p => p.1 = k)
  · rw [if_pos h]
    simp only [List.mem_map]
    constructor
    · rintro ⟨p, hp, hpe⟩
      by_cases hk : p.1 = k
      · rw [if_pos hk] at hpe
        exact (congrArg Prod.snd hpe).symm
      · rw [if_neg hk] at hpe
        exact absurd (congrArg Prod.fst hpe) hk
    · rintro rfl
      obtain ⟨p, hp, hpk⟩ := List.any_eq_true.mp h
      exact ⟨p, hp, by rw [if_pos (of_decide_eq_true hpk)]⟩
  · rw [if_neg h]
    constructor
    · intro hmem
      rcases List.mem_append.mp hmem with hm2 | hm2
      · exact absurd (List.any_eq_true.mpr ⟨(k, v'), hm2, by simp⟩) h
      · rw [List.mem_singleton] at hm2
        exact congrArg Prod.snd hm2
    · rintro rfl
      exact List.mem_append.mpr (Or.inr (by simp))

/-- memMapUpsertOfNe: `m[k] = v` leaves every other key's entry alone. -/
theorem memMapUpsertOfNe (m : List (ℚ × BackendStation)) (k k' : ℚ) (v v' : BackendStation)
    (h : k' ≠ k) :
    (k', v') ∈ mapUpsert m k v ↔ (k', v') ∈ m := by
  rw [mapUpsert]
  by_cases hm : m.any (fun p => p.1 = k)
  · rw [if_pos hm]
    simp only [List.mem_map]
    constructor
    · rintro ⟨p, hp, hpe⟩
      by_cases hk : p.1 = k
      · rw [if_pos hk] at hpe
        exact absurd (congrArg Prod.fst hpe).symm h
      · rw [if_neg hk] at hpe
        rwa [hpe] at hp
    · intro hmem
      refine ⟨(k', v'), hmem, ?_⟩
      simp [h]
  · rw [if_neg hm]
    constructor
    · intro hmem
      rcases List.mem_append.mp hmem with hm2 | hm2
      · exact hm2
      · rw [List.mem_singleton] at hm2
        exact absurd (congrArg Prod.fst hm2) h
    · exact fun hmem => List.mem_append.mpr (Or.inl hmem)

/-- mapKeysMapUpsert: an upsert leaves the key list unchanged when the key
exists, else appends the new key. -/
theorem mapKeysMapUpsert (m : List (ℚ × BackendStation)) (k : ℚ) (v : BackendStation) :
    mapKeys (mapUpsert m k v) =
      if m.any (fun p => p.1 = k) then mapKeys m else mapKeys m ++ [k] := by
  rw [mapUpsert, mapKeys]
  by_cases h : m.any (fun p => p.1 = k)
  · rw [if_pos h, if_pos h, List.map_map, mapKeys]
    refine List.map_congr_left (fun p hp => ?_)
    by_cases hk : p.1 = k
    · simp [hk]
    · simp [hk]
  · rw [if_neg h, if_neg h, List.map_append, mapKeys]
    rfl

/-- nodupMapKeysMapUpsert: an upsert preserves key distinctness. -/
theorem nodupMapKeysMapUpsert (m : List (ℚ × BackendStation)) (k : ℚ) (v : BackendStation)
    (h : (mapKeys m).Nodup) : (mapKeys (mapUpsert m k v)).Nodup := by
  rw [mapKeysMapUpsert]
  by_cases hm : m.any (fun p => p.1 = k)
  · rwa [if_pos hm]
  · rw [if_neg hm]
    rw [List.nodup_append]
    refine ⟨h, List.nodup_singleton k, fun a ha hb => ?_⟩
    rw [List.mem_singleton] at hb
    subst hb
    obtain ⟨p, hp, hpk⟩ := List.mem_map.mp ha
    exact absurd (List.any_eq_true.mpr ⟨p, hp, by simp [hpk]⟩) hm

/-- buildLoopMem characterises membership in the distance map built by the
ranker's first loop: an entry `(k, v)` is present after processing
`stations` exactly when `v` is the last station of distance `k` (or, if no
station has distance `k`, when the entry was already in the accumulator). -/
theorem buildLoopMem (dist : BackendStation → ℚ) :
    ∀ (stations : List BackendStation) (m : List (ℚ × BackendStation)) (k : ℚ)
      (v : BackendStation),
      ((k, v) ∈ stations.foldl (fun m st => mapUpsert m (dist st) st) m ↔
        (if stations.filter (fun s => dist s = k) = [] then (k, v) ∈ m
         else (stations.filter (fun s => dist s = k)).getLast? = some v)) := by
  intro stations
  induction stations with
  | nil => intro m k v; simp
  | cons st rest ih =>
    intro m k v
    rw [List.foldl_cons, ih]
    by_cases hd : dist st = k
    · have hfil : (st :: rest).filter (fun s => dist s = k) =
          st :: rest.filter (fun s => dist s = k) := by
        rw [List.filter_cons, if_pos (by simp [hd])]
      rw [hfil]
      by_cases hr : rest.filter (fun s => dist s = k) = []
      · rw [if_pos hr, hr, if_neg (by simp)]
        rw [← hd, memMapUpsertSelf]
        simp [eq_comm]
      · rw [if_neg hr, if_neg (by simp)]
        obtain ⟨a, l, hal⟩ : ∃ a l, rest.filter (fun s => dist s = k) = a :: l := by
          cases hc : rest.filter (fun s => dist s = k) with
          | nil => exact absurd hc hr
          | cons a l => exact ⟨a, l, rfl⟩
        rw [hal, List.getLast?_cons_cons]
    · have hfil : (st :: rest).filter (fun s => dist s = k) =
          rest.filter (fun s => dist s = k) := by
        rw [List.filter_cons, if_neg (by simp [hd])]
      rw [hfil]
      by_cases hr : rest.filter (fun s => dist s = k) = []
      · rw [if_pos hr, if_pos hr]
        exact memMapUpsertOfNe m (dist st) k st v (fun he => hd he.symm)
      · rw [if_neg hr, if_neg hr]

/-- buildDistanceMapMem specialises `buildLoopMem` to the empty initial
map: `(k, v)` is in the distance map iff `v` is the last input station at
distance `k`. -/
theorem buildDistanceMapMem (dist : BackendStation → ℚ) (stations : List BackendStation)
    (k : ℚ) (v : BackendStation) :
    (k, v) ∈ buildDistanceMap dist stations ↔
      (stations.filter (fun s => dist s = k)).getLast? = some v := by
  rw [buildDistanceMap, buildLoopMem]
  by_cases h : stations.filter (fun s => dist s = k) = []
  · rw [if_pos h, h]
    simp
  · rw [if_neg h]

/-- buildDistanceMapNodup: the distance map has pairwise-distinct keys. -/
theorem buildDistanceMapNodup (dist : BackendStation → ℚ) (stations : List BackendStation) :
    (mapKeys (buildDistanceMap dist stations)).Nodup := by
  rw [buildDistanceMap]
  have h : ∀ (l : List BackendStation) (m : List (ℚ × BackendStation)),
      (mapKeys m).Nodup → (mapKeys (l.foldl (fun m st => mapUpsert m (dist st) st) m)).Nodup := by
    intro l
    induction l with
    | nil => intro m hm; exact hm
    | cons st rest ihl =>
      intro m hm
      rw [List.foldl_cons]
      exact ihl _ (nodupMapKeysMapUpsert m (dist st) st hm)
  exact h stations [] (by simp [mapKeys])

/-- findEntryOfMem: with pairwise-distinct keys, `find?` on the key
predicate returns exactly the stored entry. -/
theorem findEntryOfMem (m : List (ℚ × BackendStation)) (hnd : (mapKeys m).Nodup)
    (d : ℚ) (st : BackendStation) (hmem : (d, st) ∈ m) :
    m.find? (fun p => p.1 = d) = some (d, st) := by
  induction m with
  | nil => exact absurd hmem (List.not_mem_nil _)
  | cons p m' ih =>
    rw [mapKeys, List.map_cons, List.nodup_cons] at hnd
    by_cases hk : p.1 = d
    · rw [List.find?_cons_of_pos _ (by simp [hk])]
      rcases List.mem_cons.mp hmem with he | hm'
      · rw [he]
      · exact absurd (List.mem_map.mpr ⟨(d, st), hm', rfl⟩ : d ∈ List.map (fun x => x.1) m')
          (hk ▸ hnd.1)
    · rw [List.find?_cons_of_neg _ (by simp [hk])]
      rcases List.mem_cons.mp hmem with he | hm'
      · exact absurd (congrArg Prod.fst he).symm hk
      · exact ih (by simpa [mapKeys] using hnd.2) hm'

/-- findPossibleAux analyses one step of the ranker's output loop: a key
`d` yields station `st` exactly when the map stores `(d, st)` and `st`
passes the coverage filter; the stored station's distance is its key. -/
theorem findPossibleAux (dist : BackendStation → ℚ) (stations : List BackendStation)
    (years lastMeasuredYear : ℤ) (d : ℚ) (st : BackendStation)
    (hf : (match (buildDistanceMap dist stations).find? (fun p => p.1 = d) with
           | some p => if lastMeasuredYear - years < p.2.endDate.year then some p.2 else none
           | none => none) = some st) :
    dist st = d ∧ lastMeasuredYear - years < st.endDate.year ∧
      (d, st) ∈ buildDistanceMap dist stations := by
  cases hfind : (buildDistanceMap dist stations).find? (fun p => p.1 = d) with
  | none => rw [hfind] at hf; exact Option.noConfusion hf
  | some p =>
    rw [hfind] at hf
    have hf2 : (if lastMeasuredYear - years < p.2.endDate.year then some p.2 else none) =
        some st := hf
    by_cases hc : lastMeasuredYear - years < p.2.endDate.year
    · rw [if_pos hc] at hf2
      have hst : p.2 = st := Option.some.inj hf2
      have hp0 := List.find?_some hfind
      simp only [decide_eq_true_eq] at hp0
      have hp1 : p.1 = d := hp0
      have hpm : (d, st) ∈ buildDistanceMap dist stations := by
        have := List.mem_of_find?_eq_some hfind
        rwa [(Prod.ext_iff.mpr ⟨hp1, hst⟩ : p = (d, st))] at this
      have hdist : dist st = d := by
        have hlast := (buildDistanceMapMem dist stations d st).mp hpm
        obtain ⟨hne, hg⟩ := List.mem_getLast?_eq_getLast (Option.mem_def.mpr hlast)
        have hmem : st ∈ stations.filter (fun s => dist s = d) := hg ▸ List.getLast_mem hne
        have hp := List.of_mem_filter hmem
        simp only [decide_eq_true_eq] at hp
        exact hp
      exact ⟨hdist, hst ▸ hc, hpm⟩
    · rw [if_neg hc] at hf2
      exact Option.noConfusion hf2

/-- findPossibleMem characterises the ranker's returned set: a station is
returned iff it passes the coverage filter and is the last input station at
its own distance (the survivor of the distance-keyed map). -/
theorem findPossibleMem (dist : BackendStation → ℚ) (stations : List BackendStation)
    (years lastMeasuredYear : ℤ) (st : BackendStation) :
    st ∈ findPossibleNearestStations dist stations years lastMeasuredYear ↔
      (lastMeasuredYear - years < st.endDate.year ∧
        (stations.filter (fun s => dist s = dist st)).getLast? = some st) := by
  rw [findPossibleNearestStations]
  simp only [List.mem_filterMap]
  constructor
  · rintro ⟨d, hd, hf⟩
    obtain ⟨hdist, hcond, hpm⟩ := findPossibleAux dist stations years lastMeasuredYear d st hf
    refine ⟨hcond, ?_⟩
    rw [hdist]
    exact (buildDistanceMapMem dist stations d st).mp hpm
  · rintro ⟨hcond, hlast⟩
    have hpm : (dist st, st) ∈ buildDistanceMap dist stations :=
      (buildDistanceMapMem dist stations (dist st) st).mpr hlast
    refine ⟨dist st, ?_, ?_⟩
    · exact (List.perm_insertionSort _ _).mem_iff.mpr
        (List.mem_map.mpr ⟨(dist st, st), hpm, rfl⟩)
    · rw [findEntryOfMem _ (buildDistanceMapNodup dist stations) _ _ hpm]
      show (if lastMeasuredYear - years < st.endDate.year then some st else none) = some st
      rw [if_pos hcond]

/-- findPossiblePairwise: the ranker's returned list is strictly ascending
in the computed distance. -/
theorem findPossiblePairwise (dist : BackendStation → ℚ) (stations : List BackendStation)
    (years lastMeasuredYear : ℤ) :
    (findPossibleNearestStations dist stations years lastMeasuredYear).Pairwise
      (fun a b => dist a < dist b) := by
  rw [findPossibleNearestStations]
  have hsorted : ((mapKeys (buildDistanceMap dist stations)).insertionSort (· ≤ ·)).Pairwise
      (fun a b : ℚ => a ≤ b) := List.sorted_insertionSort _ _
  have hnodup : ((mapKeys (buildDistanceMap dist stations)).insertionSort (· ≤ ·)).Nodup :=
    (List.perm_insertionSort _ _).nodup_iff.mpr (buildDistanceMapNodup dist stations)
  have hlt : ((mapKeys (buildDistanceMap dist stations)).insertionSort (· ≤ ·)).Pairwise
      (fun a b : ℚ => a < b) :=
    (hsorted.and hnodup).imp (fun h => lt_of_le_of_ne h.1 h.2)
  refine List.Pairwise.filterMap _ (fun d d' hdd x hx y hy => ?_) hlt
  obtain ⟨hdx, -, -⟩ := findPossibleAux dist stations years lastMeasuredYear d x hx
  obtain ⟨hdy, -, -⟩ := findPossibleAux dist stations years lastMeasuredYear d' y hy
  rw [hdx, hdy]
  exact hdd

/-- stationA is a coverage-passing station used in concrete ranker runs. -/
def stationA : BackendStation := ⟨"A", 1, 1, ⟨2015, 3, 31, 0⟩⟩

/-- stationB is a second coverage-passing station. -/
def stationB : BackendStation := ⟨"B", 2, 2, ⟨2016, 3, 31, 0⟩⟩

/-- C4 (corrected): the ranker's output is strictly ascending in the
computed (haversine) distance, and contains exactly the stations that both
pass the coverage filter (`endDate.year > lastMeasuredYear - years`) and
survive the distance-keyed map — i.e. are the last input station at their
own distance.  (The haversine computation itself is floating-point
trigonometry and is abstracted as the distance function `dist`.) -/
theorem findPossibleNearestStations_sorted_characterisation
    (dist : BackendStation → ℚ) (stations : List BackendStation)
    (years lastMeasuredYear : ℤ) :
    (findPossibleNearestStations dist stations years lastMeasuredYear).Pairwise
      (fun a b => dist a < dist b) ∧
    ∀ st : BackendStation,
      st ∈ findPossibleNearestStations dist stations years lastMeasuredYear ↔
        (lastMeasuredYear - years < st.endDate.year ∧
          (stations.filter (fun s => dist s = dist st)).getLast? = some st) :=
  ⟨findPossiblePairwise dist stations years lastMeasuredYear,
   fun st => findPossibleMem dist stations years lastMeasuredYear st⟩

/-- C4 counterexample: with two distinct stations at the same computed
distance, both passing the coverage filter, the ranker drops the earlier
one: the output is not "exactly those input stations whose
last-measured-year is > lastMeasuredYear - years". -/
theorem findPossible_equal_distance_drops_station :
    stationA ∈ ([stationA, stationB] : List BackendStation) ∧
      (2020 : ℤ) - 10 < stationA.endDate.year ∧
      stationA ∉ findPossibleNearestStations (fun _ => 0) [stationA, stationB] 10 2020 ∧
      stationA ≠ stationB := by
  refine ⟨by decide, by decide, ?_, by decide⟩
  intro hmem
  have h := (findPossibleMem (fun _ => 0) [stationA, stationB] 10 2020 stationA).mp hmem
  have hl : ([stationA, stationB].filter
      (fun s => (fun _ : BackendStation => (0 : ℚ)) s = 0)).getLast? = some stationB := by
    decide
  rw [hl] at h
  exact absurd (Option.some.inj h.2) (by decide)

/-- C10 (confirmed): two distinct returned stations never share a computed
distance (so at most one of two equal-distance stations is returned), and
every returned station is the last input station at its distance — an
equal-distance station appearing later in the directory overwrites the
earlier one, which is then never considered. -/
theorem findPossible_distance_key_collision
    (dist : BackendStation → ℚ) (stations : List BackendStation)
    (years lastMeasuredYear : ℤ) :
    (∀ s₁ s₂ : BackendStation,
      s₁ ∈ findPossibleNearestStations dist stations years lastMeasuredYear →
      s₂ ∈ findPossibleNearestStations dist stations years lastMeasuredYear →
      s₁ ≠ s₂ → dist s₁ ≠ dist s₂) ∧
    (∀ st : BackendStation,
      st ∈ findPossibleNearestStations dist stations years lastMeasuredYear →
      (stations.filter (fun s => dist s = dist st)).getLast? = some st) := by
  constructor
  · intro s₁ s₂ h₁ h₂ hne hdist
    have hc₁ := (findPossibleMem dist stations years lastMeasuredYear s₁).mp h₁
    have hc₂ := (findPossibleMem dist stations years lastMeasuredYear s₂).mp h₂
    rw [hdist] at hc₁
    exact hne (Option.some.inj (hc₁.2.symm.trans hc₂.2))
  · intro st hst
    exact ((findPossibleMem dist stations years lastMeasuredYear st).mp hst).2

/-- distAB is a concrete distance function separating the two sample
stations. -/
def distAB : BackendStation → ℚ := fun st => if st.name = "A" then 0 else 1

/-- C10 witness: with two stations at distinct distances both parts apply —
their distances differ and each is the survivor at its own distance. -/
theorem findPossible_distance_key_collision_witness :
    distAB stationA ≠ distAB stationB ∧
      ([stationA, stationB].filter
        (fun s => distAB s = distAB stationA)).getLast? = some stationA := by
  constructor
  · exact (findPossible_distance_key_collision distAB [stationA, stationB] 10 2020).1
      stationA stationB (by decide) (by decide) (by decide)
  · exact (findPossible_distance_key_collision distAB [stationA, stationB] 10 2020).2
      stationA (by decide)

/-- yearDesc is the Mongo sort key `{"year": -1}`: records ordered by
descending year. -/
def yearDesc (a b : WindStatistics) : Prop := b.year ≤ a.year

instance : DecidableRel yearDesc := fun a b => inferInstanceAs (Decidable (b.year ≤ a.year))

instance : IsTotal WindStatistics yearDesc := ⟨fun a b => le_total b.year a.year⟩

instance : IsTrans WindStatistics yearDesc := ⟨fun _ _ _ h₁ h₂ => le_trans h₂ h₁⟩

/-- errNoWindDataForStation mirrors `repository.ErrNoWindDataForStation`. -/
def errNoWindDataForStation : String := "there is no wind data for the given station"

/-- part003GetStationWindStatistics embeds the `GetStationWindStatistics`
iteration of src/unnamed/part_003 (lines 358-378): filter the stored
records by station name, sort by year descending, limit to `years` rows;
an empty result is `ErrNoWindDataForStation`.  The stored collection is
modelled as a list in natural (insertion) order. -/
def part003GetStationWindStatistics (db : List WindStatistics) (stationName : String)
    (years : ℤ) : Except String (List WindStatistics) :=
  let l := ((db.filter (fun w => w.stationName = stationName)).insertionSort
    yearDesc).take years.toNat
  if l = [] then .error errNoWindDataForStation else .ok l

/-- mongoGetStationWindStatistics embeds the `GetStationWindStatistics` of
src/internal/repository/mongo.go (lines 178-202): filter by station name
AND `year >= curYear - years` where `curYear` is the current wall-clock
year (`time.Now().Date()`), sort by year descending; an empty result is
`ErrNoWindDataForStation`. -/
def mongoGetStationWindStatistics (db : List WindStatistics) (stationName : String)
    (years curYear : ℤ) : Except String (List WindStatistics) :=
  let l := (db.filter
    (fun w => w.stationName = stationName ∧ curYear - years ≤ w.year)).insertionSort yearDesc
  if l = [] then .error errNoWindDataForStation else .ok l

/-- C3 (corrected): the part_003 iteration answers relative to the data:
it returns the station's stored records sorted by year descending, exactly
min(N, available) of them, all belonging to the station, and every record
left out is no more recent than every record returned. -/
theorem part003GetStationWindStatistics_most_recent
    (db : List WindStatistics) (stationName : String) (years : ℤ)
    (l : List WindStatistics)
    (hok : part003GetStationWindStatistics db stationName years = .ok l) :
    (∀ w ∈ l, w.stationName = stationName) ∧
    l.Pairwise yearDesc ∧
    l.length = min years.toNat (db.filter (fun w => w.stationName = stationName)).length ∧
    (∀ r ∈ l, ∀ w ∈ db.filter (fun w => w.stationName = stationName),
      w ∉ l → w.year ≤ r.year) := by
  rw [part003GetStationWindStatistics] at hok
  by_cases hl : ((db.filter (fun w => w.stationName = stationName)).insertionSort
      yearDesc).take years.toNat = []
  · rw [if_pos hl] at hok
    exact Except.noConfusion hok
  · rw [if_neg hl] at hok
    have hle : l = ((db.filter (fun w => w.stationName = stationName)).insertionSort
        yearDesc).take years.toNat := (Except.ok.inj hok).symm
    subst hle
    have hperm := List.perm_insertionSort yearDesc (db.filter (fun w => w.stationName = stationName))
    have hsorted : ((db.filter (fun w => w.stationName = stationName)).insertionSort
        yearDesc).Pairwise yearDesc := List.sorted_insertionSort yearDesc _
    refine ⟨?_, ?_, ?_, ?_⟩
    · intro w hw
      have hwm : w ∈ (db.filter (fun w => w.stationName = stationName)).insertionSort yearDesc :=
        List.mem_of_mem_take hw
      have := List.of_mem_filter (hperm.mem_iff.mp hwm)
      simpa using this
    · exact hsorted.sublist (List.take_sublist _ _)
    · rw [List.length_take, hperm.length_eq]
    · intro r hr w hw hwl
      have hwm : w ∈ (db.filter (fun w => w.stationName = stationName)).insertionSort yearDesc :=
        hperm.mem_iff.mpr hw
      have hsplit := List.take_append_drop years.toNat
        ((db.filter (fun w => w.stationName = stationName)).insertionSort yearDesc)
      have hpair : ∀ a ∈ ((db.filter (fun w => w.stationName = stationName)).insertionSort
            yearDesc).take years.toNat,
          ∀ b ∈ ((db.filter (fun w => w.stationName = stationName)).insertionSort
            yearDesc).drop years.toNat, yearDesc a b := by
        have := hsorted
        rw [← hsplit, List.pairwise_append] at this
        exact this.2.2
      have hwd : w ∈ ((db.filter (fun w => w.stationName = stationName)).insertionSort
          yearDesc).drop years.toNat := by
        rcases (List.mem_append.mp (by rw [hsplit]; exact hwm)) with h | h
        · exact absurd h hwl
        · exact h
      exact hpair r hr w hwd

/-- C3 witness: with records for years 2014 and 2015 for station A and one
for station B, requesting 1 year returns exactly the most recent A record
(2015), with all four conclusions instantiated. -/
theorem part003GetStationWindStatistics_most_recent_witness :
    part003GetStationWindStatistics
        [⟨"A", 2014, 3⟩, ⟨"A", 2015, 1⟩, ⟨"B", 2020, 2⟩] "A" 1 =
      .ok [⟨"A", 2015, 1⟩] ∧
    (∀ w ∈ ([⟨"A", 2015, 1⟩] : List WindStatistics), w.stationName = "A") ∧
    ([⟨"A", 2015, 1⟩] : List WindStatistics).Pairwise yearDesc ∧
    ([⟨"A", 2015, 1⟩] : List WindStatistics).length =
      min (1 : ℤ).toNat (([⟨"A", 2014, 3⟩, ⟨"A", 2015, 1⟩, ⟨"B", 2020, 2⟩] :
        List WindStatistics).filter (fun w => w.stationName = "A")).length ∧
    (∀ r ∈ ([⟨"A", 2015, 1⟩] : List WindStatistics),
      ∀ w ∈ (([⟨"A", 2014, 3⟩, ⟨"A", 2015, 1⟩, ⟨"B", 2020, 2⟩] :
        List WindStatistics).filter (fun w => w.stationName = "A")),
      w ∉ ([⟨"A", 2015, 1⟩] : List WindStatistics) → w.year ≤ r.year) := by
  have hok : part003GetStationWindStatistics
      [⟨"A", 2014, 3⟩, ⟨"A", 2015, 1⟩, ⟨"B", 2020, 2⟩] "A" 1 = .ok [⟨"A", 2015, 1⟩] := by
    rfl
  have h := part003GetStationWindStatistics_most_recent _ "A" 1 _ hok
  exact ⟨hok, h.1, h.2.1, h.2.2.1, h.2.2.2⟩

/-- C3 counterexample: with the single stored record {A, 2015} and N = 1,
the mongo.go iteration filters by `year >= wallClockYear - 1`, so in 2026
it finds nothing and fails, while the most recent year with data is 2015
and the part_003 iteration returns that record; the result depends on the
wall clock, refuting the claim for GetStationWindStatistics as implemented
in mongo.go. -/
theorem mongoGetStationWindStatistics_wall_clock :
    mongoGetStationWindStatistics [⟨"A", 2015, 1⟩] "A" 1 2026 =
      .error errNoWindDataForStation ∧
    mongoGetStationWindStatistics [⟨"A", 2015, 1⟩] "A" 1 2015 = .ok [⟨"A", 2015, 1⟩] ∧
    part003GetStationWindStatistics [⟨"A", 2015, 1⟩] "A" 1 = .ok [⟨"A", 2015, 1⟩] := by
  refine ⟨by rfl, by rfl, by rfl⟩

/-- LoadError distinguishes the "no source file" condition
(`errStatsFileNotFound`, tested with `errors.Is`) from any other failure of
`loadStationWindStatistics`. -/
inductive LoadError where
  | statsFileNotFound
  | other (msg : String)
  deriving DecidableEq, Repr

/-- errNoStatisticsInThisPeriod mirrors `service.ErrNoStatisticsInThisPeriod`. -/
def errNoStatisticsInThisPeriod : String :=
  "unfortunately, there is no statistics available for the nearest weather station for this period"

/-- selectStation is the candidate loop of `GetWindStatistics`
(src/unnamed/part_008 lines 62-111), with the repository and the
locate/fetch/parse/aggregate pipeline abstracted as oracles: for each
candidate in order, resolve its id (any failure aborts), check whether
statistics already exist (failure aborts, `true` picks the candidate
without building), otherwise build; `errStatsFileNotFound` falls through to
the next candidate, any other build failure aborts, success picks the
candidate.  An exhausted loop leaves `stationName == ""`. -/
def selectStation (getStationID : String → Except String String)
    (checkExists : String → Except String Bool)
    (load : String → String → Except LoadError Unit) :
    List BackendStation → Except String String
  | [] => .ok ""
  | ps :: rest =>
    match getStationID ps.name with
    | .error e => .error ("failed to get station id: " ++ e)
    | .ok stationID =>
      match checkExists ps.name with
      | .error e => .error ("failed to check if statistics exists: " ++ e)
      | .ok true => .ok ps.name
      | .ok false =>
        match load stationID ps.name with
        | .error .statsFileNotFound => selectStation getStationID checkExists load rest
        | .error (.other e) => .error e
        | .ok _ => .ok ps.name

/-- getWindStatisticsResolve is the station-resolution part of
`GetWindStatistics`: run the candidate loop and, when it exhausts all
candidates (`stationName == ""`), fail with `ErrNoStatisticsInThisPeriod`. -/
def getWindStatisticsResolve (getStationID : String → Except String String)
    (checkExists : String → Except String Bool)
    (load : String → String → Except LoadError Unit)
    (candidates : List BackendStation) : Except String String :=
  match selectStation getStationID checkExists load candidates with
  | .error e => .error e
  | .ok picked => if picked = "" then .error errNoStatisticsInThisPeriod else .ok picked

/-- selectStationTrace instruments `selectStation` with the list of station
names for which the build pipeline (`loadStationWindStatistics`) was
invoked. -/
def selectStationTrace (getStationID : String → Except String String)
    (checkExists : String → Except String Bool)
    (load : String → String → Except LoadError Unit) :
    List BackendStation → Except String String × List String
  | [] => (.ok "", [])
  | ps :: rest =>
    match getStationID ps.name with
    | .error e => (.error ("failed to get station id: " ++ e), [])
    | .ok stationID =>
      match checkExists ps.name with
      | .error e => (.error ("failed to check if statistics exists: " ++ e), [])
      | .ok true => (.ok ps.name, [])
      | .ok false =>
        match load stationID ps.name with
        | .error .statsFileNotFound =>
          let r := selectStationTrace getStationID checkExists load rest
          (r.1, ps.name :: r.2)
        | .error (.other e) => (.error e, [ps.name])
        | .ok _ => (.ok ps.name, [ps.name])

/-- attemptFellThrough says candidate `p`'s build was attempted and failed
with the distinguishable "no source file" condition. -/
def attemptFellThrough (getStationID : String → Except String String)
    (checkExists : String → Except String Bool)
    (load : String → String → Except LoadError Unit) (p : BackendStation) : Prop :=
  ∃ id, getStationID p.name = .ok id ∧ checkExists p.name = .ok false ∧
    load id p.name = .error .statsFileNotFound

/-- attemptSucceeded says candidate `p` yields usable statistics: either
they already exist, or the build ran and succeeded. -/
def attemptSucceeded (getStationID : String → Except String String)
    (checkExists : String → Except String Bool)
    (load : String → String → Except LoadError Unit) (p : BackendStation) : Prop :=
  ∃ id, getStationID p.name = .ok id ∧
    (checkExists p.name = .ok true ∨
      (checkExists p.name = .ok false ∧ load id p.name = .ok ()))

/-- selectStationSkip: candidates that fall through with "no source file"
are skipped without affecting the rest of the loop. -/
theorem selectStationSkip (getStationID : String → Except String String)
    (checkExists : String → Except String Bool)
    (load : String → String → Except LoadError Unit) :
    ∀ (pfx l : List BackendStation),
      (∀ p ∈ pfx, attemptFellThrough getStationID checkExists load p) →
      selectStation getStationID checkExists load (pfx ++ l) =
        selectStation getStationID checkExists load l := by
  intro pfx
  induction pfx with
  | nil => intro l _; rfl
  | cons p pfx ih =>
    intro l hp
    obtain ⟨id, hid, hch, hld⟩ := hp p (by simp)
    rw [List.cons_append]
    show selectStation getStationID checkExists load (p :: (pfx ++ l)) = _
    simp only [selectStation, hid, hch, hld]
    exact ih l (fun a ha => hp a (by simp [ha]))

/-- selectStationOkSplit: a successful pick decomposes the candidate list
into fallen-through candidates, the picked candidate, and the untried
rest. -/
theorem selectStationOkSplit (getStationID : String → Except String String)
    (checkExists : String → Except String Bool)
    (load : String → String → Except LoadError Unit) :
    ∀ (l : List BackendStation) (name : String),
      selectStation getStationID checkExists load l = .ok name → name ≠ "" →
      ∃ (pfx : List BackendStation) (c : BackendStation) (rest : List BackendStation),
        l = pfx ++ c :: rest ∧ name = c.name ∧
        (∀ p ∈ pfx, attemptFellThrough getStationID checkExists load p) ∧
        attemptSucceeded getStationID checkExists load c := by
  intro l
  induction l with
  | nil =>
    intro name hok hne
    exact absurd (Except.ok.inj hok).symm hne
  | cons ps rest ih =>
    intro name hok hne
    cases hid : getStationID ps.name with
    | error e =>
      simp only [selectStation, hid] at hok
      exact Except.noConfusion hok
    | ok stationID =>
      cases hch : checkExists ps.name with
      | error e =>
        simp only [selectStation, hid, hch] at hok
        exact Except.noConfusion hok
      | ok b =>
        cases b with
        | true =>
          simp only [selectStation, hid, hch] at hok
          refine ⟨[], ps, rest, rfl, (Except.ok.inj hok).symm, by simp, ?_⟩
          exact ⟨stationID, hid, Or.inl hch⟩
        | false =>
          cases hld : load stationID ps.name with
          | error le =>
            cases le with
            | statsFileNotFound =>
              simp only [selectStation, hid, hch, hld] at hok
              obtain ⟨pfx, c, rest', hsplit, hname, hpfx, hc⟩ := ih name hok hne
              refine ⟨ps :: pfx, c, rest', by rw [List.cons_append, hsplit], hname, ?_, hc⟩
              intro p hp
              rcases List.mem_cons.mp hp with hpe | hpm
              · exact hpe ▸ ⟨stationID, hid, hch, hld⟩
              · exact hpfx p hpm
            | other e =>
              simp only [selectStation, hid, hch, hld] at hok
              exact Except.noConfusion hok
          | ok u =>
            simp only [selectStation, hid, hch, hld] at hok
            refine ⟨[], ps, rest, rfl, (Except.ok.inj hok).symm, by simp, ?_⟩
            exact ⟨stationID, hid, Or.inr ⟨hch, hld⟩⟩

/-- C5 (confirmed): over the ranked candidate list, (i) a successful
request picks the first candidate that yields usable statistics — every
earlier candidate was attempted and fell through with the distinguishable
"no source file" condition, and every untried candidate is strictly farther
away; (ii) a candidate whose build fails with any other error aborts the
request with that error; (iii) when every candidate falls through, the
request fails with `ErrNoStatisticsInThisPeriod`. -/
theorem getWindStatistics_candidate_fallback
    (getStationID : String → Except String String) (checkExists : String → Except String Bool)
    (load : String → String → Except LoadError Unit) (dist : BackendStation → ℚ)
    (stations : List BackendStation) (years lastMeasuredYear : ℤ) :
    (∀ name : String,
      getWindStatisticsResolve getStationID checkExists load
          (findPossibleNearestStations dist stations years lastMeasuredYear) = .ok name →
      ∃ (pfx : List BackendStation) (c : BackendStation) (rest : List BackendStation),
        findPossibleNearestStations dist stations years lastMeasuredYear =
          pfx ++ c :: rest ∧ name = c.name ∧
        (∀ p ∈ pfx, attemptFellThrough getStationID checkExists load p) ∧
        attemptSucceeded getStationID checkExists load c ∧
        ∀ r ∈ rest, dist c < dist r) ∧
    (∀ (pfx : List BackendStation) (c : BackendStation) (rest : List BackendStation)
        (id e : String),
      findPossibleNearestStations dist stations years lastMeasuredYear = pfx ++ c :: rest →
      (∀ p ∈ pfx, attemptFellThrough getStationID checkExists load p) →
      getStationID c.name = .ok id → checkExists c.name = .ok false →
      load id c.name = .error (.other e) →
      getWindStatisticsResolve getStationID checkExists load
        (findPossibleNearestStations dist stations years lastMeasuredYear) = .error e) ∧
    ((∀ p ∈ findPossibleNearestStations dist stations years lastMeasuredYear,
        attemptFellThrough getStationID checkExists load p) →
      getWindStatisticsResolve getStationID checkExists load
          (findPossibleNearestStations dist stations years lastMeasuredYear) =
        .error errNoStatisticsInThisPeriod) := by
  refine ⟨?_, ?_, ?_⟩
  · intro name hok
    rw [getWindStatisticsResolve] at hok
    cases hsel : selectStation getStationID checkExists load
        (findPossibleNearestStations dist stations years lastMeasuredYear) with
    | error e =>
      rw [hsel] at hok
      exact Except.noConfusion (show (Except.error e : Except String String) = .ok name from hok)
    | ok picked =>
      rw [hsel] at hok
      have hok2 : (if picked = "" then (.error errNoStatisticsInThisPeriod : Except String String)
          else .ok picked) = .ok name := hok
      by_cases hp : picked = ""
      · rw [if_pos hp] at hok2; exact Except.noConfusion hok2
      · rw [if_neg hp] at hok2
        have hpn : picked = name := Except.ok.inj hok2
        subst hpn
        obtain ⟨pfx, c, rest, hsplit, hname, hpfx, hc⟩ :=
          selectStationOkSplit getStationID checkExists load _ picked hsel hp
        refine ⟨pfx, c, rest, hsplit, hname, hpfx, hc, ?_⟩
        have hpair := findPossiblePairwise dist stations years lastMeasuredYear
        rw [hsplit] at hpair
        have := (List.pairwise_append.mp hpair).2.1
        exact (List.pairwise_cons.mp this).1
  · intro pfx c rest id e hsplit hpfx hid hch hld
    rw [getWindStatisticsResolve, hsplit,
      selectStationSkip getStationID checkExists load pfx (c :: rest) hpfx]
    show (match selectStation getStationID checkExists load (c :: rest) with
      | .error e => (.error e : Except String String)
      | .ok picked => if picked = "" then .error errNoStatisticsInThisPeriod
        else .ok picked) = .error e
    simp only [selectStation, hid, hch, hld]
  · intro hall
    rw [getWindStatisticsResolve]
    have hsel : selectStation getStationID checkExists load
        (findPossibleNearestStations dist stations years lastMeasuredYear) = .ok "" := by
      have := selectStationSkip getStationID checkExists load
        (findPossibleNearestStations dist stations years lastMeasuredYear) [] hall
      rw [List.append_nil] at this
      rw [this]
      rfl
    rw [hsel]
    rfl

/-- checkedOracles is a concrete oracle set for the loop: station ids equal
names, no statistics exist yet, and only station "A"'s archive is
missing. -/
def loadAB : String → String → Except LoadError Unit :=
  fun id _ => if id = "A" then .error .statsFileNotFound else .ok ()

/-- C5 witness: with candidates [A, B] (distances 0 < 1), A falling through
with "no source file" and B building successfully, the request resolves to
B, and the theorem's decomposition applies. -/
theorem getWindStatistics_candidate_fallback_witness :
    getWindStatisticsResolve (fun n => .ok n) (fun _ => .ok false) loadAB
        (findPossibleNearestStations distAB [stationA, stationB] 10 2020) = .ok "B" ∧
      ∃ (pfx : List BackendStation) (c : BackendStation) (rest : List BackendStation),
        findPossibleNearestStations distAB [stationA, stationB] 10 2020 =
          pfx ++ c :: rest ∧ "B" = c.name ∧
        (∀ p ∈ pfx, attemptFellThrough (fun n => .ok n) (fun _ => .ok false) loadAB p) ∧
        attemptSucceeded (fun n => .ok n) (fun _ => .ok false) loadAB c ∧
        ∀ r ∈ rest, distAB c < distAB r := by
  have hok : getWindStatisticsResolve (fun n => .ok n) (fun _ => .ok false) loadAB
      (findPossibleNearestStations distAB [stationA, stationB] 10 2020) = .ok "B" := by rfl
  exact ⟨hok, (getWindStatistics_candidate_fallback (fun n => .ok n) (fun _ => .ok false)
    loadAB distAB [stationA, stationB] 10 2020).1 "B" hok⟩

/-- C8 (confirmed): the instrumented loop erases to the real one, and the
build pipeline is invoked only for candidates whose per-station existence
check returned false — a station whose statistics already exist is answered
from the cache with no archive re-fetch or re-parse. -/
theorem getWindStatistics_cache_short_circuit
    (getStationID : String → Except String String) (checkExists : String → Except String Bool)
    (load : String → String → Except LoadError Unit) :
    (∀ candidates : List BackendStation,
      (selectStationTrace getStationID checkExists load candidates).1 =
        selectStation getStationID checkExists load candidates) ∧
    (∀ (candidates : List BackendStation) (stName : String),
      stName ∈ (selectStationTrace getStationID checkExists load candidates).2 →
      checkExists stName = .ok false) := by
  constructor
  · intro candidates
    induction candidates with
    | nil => rfl
    | cons ps rest ih =>
      cases hid : getStationID ps.name with
      | error e => simp only [selectStationTrace, selectStation, hid]
      | ok stationID =>
        cases hch : checkExists ps.name with
        | error e => simp only [selectStationTrace, selectStation, hid, hch]
        | ok b =>
          cases b with
          | true => simp only [selectStationTrace, selectStation, hid, hch]
          | false =>
            cases hld : load stationID ps.name with
            | error le =>
              cases le with
              | statsFileNotFound =>
                simp only [selectStationTrace, selectStation, hid, hch, hld]
                exact ih
              | other e => simp only [selectStationTrace, selectStation, hid, hch, hld]
            | ok u => simp only [selectStationTrace, selectStation, hid, hch, hld]
  · intro candidates
    induction candidates with
    | nil =>
      intro stName h
      exact absurd h (List.not_mem_nil _)
    | cons ps rest ih =>
      intro stName h
      cases hid : getStationID ps.name with
      | error e => simp only [selectStationTrace, hid] at h; exact absurd h (List.not_mem_nil _)
      | ok stationID =>
        cases hch : checkExists ps.name with
        | error e =>
          simp only [selectStationTrace, hid, hch] at h
          exact absurd h (List.not_mem_nil _)
        | ok b =>
          cases b with
          | true =>
            simp only [selectStationTrace, hid, hch] at h
            exact absurd h (List.not_mem_nil _)
          | false =>
            cases hld : load stationID ps.name with
            | error le =>
              cases le with
              | statsFileNotFound =>
                simp only [selectStationTrace, hid, hch, hld] at h
                rcases List.mem_cons.mp h with he | hm
                · exact he ▸ hch
                · exact ih stName hm
              | other e =>
                simp only [selectStationTrace, hid, hch, hld] at h
                rw [List.mem_singleton] at h
                exact h ▸ hch
            | ok u =>
              simp only [selectStationTrace, hid, hch, hld] at h
              rw [List.mem_singleton] at h
              exact h ▸ hch

/-- C8 witness: with one uncached candidate the pipeline runs exactly for
it, and the theorem confirms its existence check returned false. -/
theorem getWindStatistics_cache_short_circuit_witness :
    ("A" : String) ∈ (selectStationTrace (fun n => .ok n) (fun _ => .ok false)
        (fun _ _ => .ok ()) [stationA]).2 ∧
      (fun _ : String => (.ok false : Except String Bool)) "A" = .ok false :=
  ⟨by decide, (getWindStatistics_cache_short_circuit (fun n => .ok n) (fun _ => .ok false)
    (fun _ _ => .ok ())).2 [stationA] "A" (by decide)⟩

end WeatherService